import Mathlib

/-!
Verification development for `multissl.py`, a multi-version OpenSSL/LibreSSL
build-and-test pipeline.  The definitions below are a shallow embedding of the
script: pure string manipulation is embedded directly, and the effectful parts
(filesystem, subprocesses, network) are embedded as explicit state passing and
event traces, with the outcome of each external process supplied as an input.
-/

namespace Multissl

/-! ### Substring check (Python `in` on strings)

`AbstractBuilder.install` (multissl.py lines 207-210) and
`AbstractBuilder.check_pyssl` (lines 239-242) validate a version with
`if self.version not in version: raise ValueError(version)`.  Python's `in` on
strings is substring containment; `pyIn needle haystack` embeds it. -/

/-- Embeds Python string containment `needle in haystack`: true iff `needle`
occurs as a contiguous substring of `haystack`. -/
def pyIn (needle : List Char) : List Char → Bool
  | [] => needle.isEmpty
  | c :: rest => needle.isPrefixOf (c :: rest) || pyIn needle rest

/-- Embeds the version validation at the end of `AbstractBuilder.install`
(lines 208-210): `version = self.openssl_version; if self.version not in
version: raise ValueError(version)`. -/
def versionCheck (requested reported : String) : Except String Unit :=
  if pyIn requested.data reported.data then Except.ok () else Except.error reported

/-- Embeds `AbstractBuilder.check_pyssl` (lines 239-242): same substring
validation, applied to the runtime-reported `ssl.OPENSSL_VERSION` string. -/
def checkPyssl (requested reported : String) : Except String Unit :=
  if pyIn requested.data reported.data then Except.ok () else Except.error reported

/-! ### Safe extractor (`AbstractBuilder._unpack_src`, lines 160-179)

The member loop: a member whose name equals the expected top-level directory
`name` is dropped; a member whose name does not start with `name + "/"` makes
the whole operation raise `ValueError(member.name, base)` before any
extraction; every other member has the prefix stripped and leading slashes
removed.  `tf.extractall` runs only after the loop finishes, so on an error no
file at all has been written. -/

/-- Embeds the member renaming `member.name = member.name[len(base):].lstrip('/')`
where `base = name + '/'` (line 177). -/
def stripName (name m : List Char) : List Char :=
  (m.drop (name ++ ['/']).length).dropWhile (fun c => c == '/')

/-- Acceptance condition of the member loop: a member is acceptable when its
name equals the expected top-level directory or starts with it plus `"/"`. -/
def memberOk (name m : List Char) : Bool :=
  m == name || (name ++ ['/']).isPrefixOf m

/-- Embeds the validation/renaming loop of `_unpack_src` (lines 171-177):
returns the list of stripped names that will be extracted, or the name of the
first offending member. -/
def validateMembers (name : List Char) : List (List Char) → Except (List Char) (List (List Char))
  | [] => Except.ok []
  | m :: rest =>
    if m == name then validateMembers name rest
    else if (name ++ ['/']).isPrefixOf m then
      match validateMembers name rest with
      | Except.ok ms => Except.ok (stripName name m :: ms)
      | Except.error e => Except.error e
    else Except.error m

/-- Names written into the destination directory by `_unpack_src`: the loop
over `members` completes before `tf.extractall(self.build_dir, members)`
(line 179) runs, so when the loop raises, nothing is written. -/
def unpackWrites (name : List Char) (members : List (List Char)) : List (List Char) :=
  match validateMembers name members with
  | Except.ok ms => ms
  | Except.error _ => []

/-! ### Builder state machine (`AbstractBuilder.install` and helpers)

`install` (lines 195-210) is embedded as a transformer on the filesystem
facts it consults, producing the trace of external effects it performs.
All subprocess steps on the build path are modelled as succeeding (a failing
`check_call` raises and is handled nowhere inside the builder); the version
validation, which is computed in-process from the reported string, is
modelled exactly. -/

/-- External effects performed by one `install` call. -/
inductive Ev where
  | download    : Ev   -- `_download_src`: HTTP GET + write of the archive
  | rmBuild     : Ev   -- `shutil.rmtree(self.build_dir)`
  | mkBuild     : Ev   -- `os.makedirs(self.build_dir)`
  | extract     : Ev   -- `tf.extractall(self.build_dir, members)`
  | configure   : Ev   -- `./config shared --prefix=...`
  | make        : Ev   -- `make -j1`
  | makeInstall : Ev   -- `make -j1 install`
  | verify      : Ev   -- `bin/openssl version` + substring validation
deriving DecidableEq, Repr

/-- Filesystem facts `install` consults: `has_openssl` (line 119,
`os.path.isfile(self.openssl_cli)`), `has_src` (line 123,
`os.path.isfile(self.src_file)`) and whether the build directory exists
(line 163, `os.path.isdir(self.build_dir)`). -/
structure BState where
  hasOpenssl : Bool
  hasSrc : Bool
  buildDirExists : Bool
deriving DecidableEq, Repr

/-- Embeds `AbstractBuilder.install` (lines 195-210): when the installed CLI
binary is absent, download the source if it is not cached, unpack into a
freshly recreated build directory, configure, compile, install, and remove the
build directory (`_make_install` with `remove=True`, lines 190-193); in both
branches finish by running the installed binary's `version` subcommand and
checking the requested version is a substring of the report.  Returns the
effect trace, the resulting filesystem facts, and the validation outcome. -/
def install (s : BState) (requested reported : String) :
    List Ev × BState × Except String Unit :=
  if s.hasOpenssl then
    ([Ev.verify], s, versionCheck requested reported)
  else
    ((if s.hasSrc then [] else [Ev.download])
      ++ (if s.buildDirExists then [Ev.rmBuild] else [])
      ++ [Ev.mkBuild, Ev.extract, Ev.configure, Ev.make, Ev.makeInstall,
          Ev.rmBuild, Ev.verify],
     { hasOpenssl := true, hasSrc := true, buildDirExists := false },
     versionCheck requested reported)

/-! ### Runtime rebinder environment (`AbstractBuilder.recompile_pymods`, lines 212-233)

The build environment is `env = os.environ.copy()` followed by exactly three
assignments: `env["CPPFLAGS"] = "-I" + include_dir`,
`env["LDFLAGS"] = "-L" + lib_dir`, `env["LD_RUN_PATH"] = lib_dir`
(lines 224-228).  An environment is a partial map from variable names to
values; the ambient environment is an input and is never written to. -/

/-- Embeds the environment overlay built by `recompile_pymods`
(lines 224-228) from a copy of the ambient process environment. -/
def recompileEnv (ambient : String → Option String) (includeDir libDir : String) :
    String → Option String :=
  fun k =>
    if k = "CPPFLAGS" then some ("-I" ++ includeDir)
    else if k = "LDFLAGS" then some ("-L" ++ libDir)
    else if k = "LD_RUN_PATH" then some libDir
    else ambient k

/-! ### Archive fetcher (`AbstractBuilder._download_src`, lines 146-158)

`req = urlopen(url); data = req.read()` then
`with open(self.src_file, "wb") as f: f.write(data)`.  The download happens
entirely before the cache file is opened; the write goes directly to the
cache path (no temporary file, no rename), and `open(..., "wb")` truncates,
so a failure during the write leaves whatever prefix of the body was flushed
at the cache path. -/

/-- Outcome of one `_download_src` run: success, a failure while downloading
(`urlopen`/`read` raises, before the cache file is opened), or a failure
during the write after `written` bytes reached the cache file (the file was
already created/truncated by `open(self.src_file, "wb")`). -/
inductive FetchOutcome where
  | success : FetchOutcome
  | failDownload : FetchOutcome
  | failWrite (written : List Nat) : FetchOutcome
deriving DecidableEq, Repr

/-- Embeds the cache-path content after `_download_src` (lines 146-158):
`cache` is the file content before the call (`none` when absent), `body` the
HTTP response body. -/
def downloadSrc (cache : Option (List Nat)) (body : List Nat) :
    FetchOutcome → Option (List Nat)
  | FetchOutcome.success => some body
  | FetchOutcome.failDownload => cache
  | FetchOutcome.failWrite written => some written

/-! ### Pipeline orchestrator (`__main__`, lines 283-334)

The main block runs, with no `try`/`except` anywhere: one loop calling
`build.install()` for every declared version (lines 304-316), then a loop
calling `build.recompile_pymods()` (lines 319-320), then a loop calling
`build.run_python_tests()` (lines 327-328) — which itself runs
`recompile_pymods`, `check_pyssl` and the test command, and re-raises every
exception — and finally `print(str(build))` for every build (lines 330-331).
Any uncaught exception terminates the process at that point.  Each external
step's success is an input (`installOk`, `rebindOk`, `testOk`); the model
returns the event trace up to the first failure and whether the run
completed. -/

/-- One declared version together with the outcomes of its external steps:
`installOk` covers `install()` end to end, `rebindOk` covers
`recompile_pymods` (including the import smoke test), `testOk` covers
`check_pyssl` plus the test command. -/
structure VSpec where
  version : String
  installOk : Bool
  rebindOk : Bool
  testOk : Bool
deriving DecidableEq, Repr

/-- Observable per-version events of the main block. -/
inductive PEv where
  | install (v : String) : PEv   -- `build.install()` attempted
  | rebind (v : String) : PEv    -- `build.recompile_pymods()` attempted
  | test (v : String) : PEv      -- `check_pyssl` + test command attempted
  | summary (v : String) : PEv   -- `print(str(build))` summary line
deriving DecidableEq, Repr

/-- Embeds the install loops (lines 304-316): each version's `install()` is
attempted in order; an exception stops the loop (and the whole script). -/
def installPhase : List VSpec → List PEv × Bool
  | [] => ([], true)
  | s :: rest =>
    if s.installOk then
      (PEv.install s.version :: (installPhase rest).1, (installPhase rest).2)
    else ([PEv.install s.version], false)

/-- Embeds the recompilation loop (lines 319-320). -/
def rebindPhase : List VSpec → List PEv × Bool
  | [] => ([], true)
  | s :: rest =>
    if s.rebindOk then
      (PEv.rebind s.version :: (rebindPhase rest).1, (rebindPhase rest).2)
    else ([PEv.rebind s.version], false)

/-- Embeds the test loop (lines 327-328): `run_python_tests` first calls
`recompile_pymods` again, then `check_pyssl` and the test command; its
`except` clause prints and re-raises, so any failure still aborts the run. -/
def testPhase : List VSpec → List PEv × Bool
  | [] => ([], true)
  | s :: rest =>
    if s.rebindOk then
      if s.testOk then
        (PEv.rebind s.version :: PEv.test s.version :: (testPhase rest).1,
         (testPhase rest).2)
      else ([PEv.rebind s.version, PEv.test s.version], false)
    else ([PEv.rebind s.version], false)

/-- Embeds the whole `__main__` pipeline (lines 283-334): install phase for
all versions, then rebind phase, then test phase, then the summary loop;
the first failing step aborts everything after it, the summary lines print
only when every step of every version succeeded. -/
def mainRun (specs : List VSpec) : List PEv × Bool :=
  if (installPhase specs).2 then
    if (rebindPhase specs).2 then
      if (testPhase specs).2 then
        ((installPhase specs).1 ++ (rebindPhase specs).1 ++ (testPhase specs).1
          ++ specs.map (fun s => PEv.summary s.version), true)
      else ((installPhase specs).1 ++ (rebindPhase specs).1 ++ (testPhase specs).1, false)
    else ((installPhase specs).1 ++ (rebindPhase specs).1, false)
  else ((installPhase specs).1, false)

/-! ### Helper lemmas -/

theorem isPrefixOf_eq_true_iff (l₁ l₂ : List Char) :
    l₁.isPrefixOf l₂ = true ↔ ∃ t, l₂ = l₁ ++ t := by
  rw [List.isPrefixOf_iff_prefix]
  constructor
  · rintro ⟨t, ht⟩; exact ⟨t, ht.symm⟩
  · rintro ⟨t, ht⟩; exact ⟨t, ht.symm⟩

/-- `pyIn` is substring containment: `needle` occurs contiguously in
`haystack` iff the haystack splits around it. -/
theorem pyIn_iff (n h : List Char) :
    pyIn n h = true ↔ ∃ pre post, h = pre ++ n ++ post := by
  induction h with
  | nil =>
    simp only [pyIn, List.isEmpty_iff]
    constructor
    · rintro rfl; exact ⟨[], [], rfl⟩
    · rintro ⟨pre, post, hp⟩
      rcases List.append_eq_nil.mp (List.append_eq_nil.mp hp.symm).1 with ⟨-, h2⟩
      exact h2
  | cons c rest ih =>
    simp only [pyIn, Bool.or_eq_true]
    constructor
    · rintro (hp | hp)
      · obtain ⟨t, ht⟩ := (isPrefixOf_eq_true_iff _ _).mp hp
        exact ⟨[], t, by simpa using ht⟩
      · obtain ⟨pre, post, hp⟩ := ih.mp hp
        exact ⟨c :: pre, post, by simp [hp]⟩
    · rintro ⟨pre, post, hp⟩
      cases pre with
      | nil =>
        left
        rw [isPrefixOf_eq_true_iff]
        exact ⟨post, by simpa using hp⟩
      | cons d pre' =>
        right
        apply ih.mpr
        refine ⟨pre', post, ?_⟩
        have hp' := hp
        simp only [List.cons_append] at hp'
        exact (List.cons_eq_cons.mp hp').2

theorem validateMembers_error_writes (name : List Char) (members : List (List Char))
    (e : List Char) (herr : validateMembers name members = Except.error e) :
    unpackWrites name members = [] := by
  simp [unpackWrites, herr]

theorem stripName_append (name rest : List Char) :
    stripName name (name ++ '/' :: rest) = rest.dropWhile (fun c => c == '/') := by
  unfold stripName
  have hm : name ++ '/' :: rest = (name ++ ['/']) ++ rest := by simp
  rw [hm, List.drop_left]

theorem installPhase_events (specs : List VSpec) (e : PEv)
    (he : e ∈ (installPhase specs).1) : ∃ v, e = PEv.install v := by
  induction specs with
  | nil => simp [installPhase] at he
  | cons s rest ih =>
    by_cases hs : s.installOk = true
    · simp only [installPhase, hs, if_true, List.mem_cons] at he
      rcases he with rfl | he
      · exact ⟨s.version, rfl⟩
      · exact ih he
    · simp only [Bool.not_eq_true] at hs
      simp only [installPhase, hs, Bool.false_eq_true, if_false,
        List.mem_singleton] at he
      exact ⟨s.version, he⟩

theorem installPhase_complete (specs : List VSpec)
    (h : (installPhase specs).2 = true) :
    (installPhase specs).1 = specs.map fun s => PEv.install s.version := by
  induction specs with
  | nil => rfl
  | cons s rest ih =>
    by_cases hs : s.installOk = true
    · simp only [installPhase, hs, if_true] at h ⊢
      simp [ih h]
    · simp only [Bool.not_eq_true] at hs
      simp [installPhase, hs] at h

theorem rebindPhase_events (specs : List VSpec) (e : PEv)
    (he : e ∈ (rebindPhase specs).1) : ∃ v, e = PEv.rebind v := by
  induction specs with
  | nil => simp [rebindPhase] at he
  | cons s rest ih =>
    by_cases hs : s.rebindOk = true
    · simp only [rebindPhase, hs, if_true, List.mem_cons] at he
      rcases he with rfl | he
      · exact ⟨s.version, rfl⟩
      · exact ih he
    · simp only [Bool.not_eq_true] at hs
      simp only [rebindPhase, hs, Bool.false_eq_true, if_false,
        List.mem_singleton] at he
      exact ⟨s.version, he⟩

theorem testPhase_events (specs : List VSpec) (e : PEv)
    (he : e ∈ (testPhase specs).1) :
    (∃ v, e = PEv.rebind v) ∨ (∃ v, e = PEv.test v) := by
  induction specs with
  | nil => simp [testPhase] at he
  | cons s rest ih =>
    by_cases hs : s.rebindOk = true
    · by_cases ht : s.testOk = true
      · simp only [testPhase, hs, ht, if_true, List.mem_cons] at he
        rcases he with rfl | rfl | he
        · exact Or.inl ⟨s.version, rfl⟩
        · exact Or.inr ⟨s.version, rfl⟩
        · exact ih he
      · simp only [Bool.not_eq_true] at ht
        simp only [testPhase, hs, ht, if_true, Bool.false_eq_true, if_false,
          List.mem_cons, List.not_mem_nil, or_false] at he
        rcases he with rfl | rfl
        · exact Or.inl ⟨s.version, rfl⟩
        · exact Or.inr ⟨s.version, rfl⟩
    · simp only [Bool.not_eq_true] at hs
      simp only [testPhase, hs, Bool.false_eq_true, if_false,
        List.mem_singleton] at he
      exact Or.inl ⟨s.version, he⟩

/-! ### Claim theorems -/

/-- Claim C2: path-traversal rejection.  If any archive member's name neither
equals the expected top-level directory name nor starts with that name
followed by "/", then `_unpack_src`'s validation loop aborts with an error
carrying an offending entry name, and no file is written into (or outside)
the destination directory. -/
theorem claim_C2 (name : List Char) (members : List (List Char))
    (h : ∃ m ∈ members, memberOk name m = false) :
    ∃ e, validateMembers name members = Except.error e ∧ e ∈ members ∧
      memberOk name e = false ∧ unpackWrites name members = [] := by
  induction members with
  | nil => simp at h
  | cons m rest ih =>
    by_cases hm : memberOk name m = false
    · have hsplit : (m == name) = false ∧ (name ++ ['/']).isPrefixOf m = false := by
        unfold memberOk at hm
        simp only [Bool.or_eq_false_iff] at hm
        exact hm
      refine ⟨m, ?_, List.mem_cons_self m rest, hm, ?_⟩
      · simp [validateMembers, hsplit.1, hsplit.2]
      · exact validateMembers_error_writes name (m :: rest) m
          (by simp [validateMembers, hsplit.1, hsplit.2])
    · have hrest : ∃ m' ∈ rest, memberOk name m' = false := by
        rcases h with ⟨e, he, hbad⟩
        rcases List.mem_cons.mp he with rfl | he'
        · exact absurd hbad hm
        · exact ⟨e, he', hbad⟩
      obtain ⟨e, herr, hmem, hbad, -⟩ := ih hrest
      have hok : memberOk name m = true := by
        cases hq : memberOk name m
        · exact absurd hq hm
        · rfl
      have herr' : validateMembers name (m :: rest) = Except.error e := by
        unfold memberOk at hok
        simp only [Bool.or_eq_true] at hok
        rcases hok with h1 | h2
        · simp [validateMembers, h1, herr]
        · by_cases h1 : (m == name) = true
          · simp [validateMembers, h1, herr]
          · simp only [Bool.not_eq_true] at h1
            simp [validateMembers, h1, h2, herr]
      exact ⟨e, herr', List.mem_cons_of_mem m hmem, hbad,
        validateMembers_error_writes name (m :: rest) e herr'⟩

/-- Claim C2 witness: the archive member `"../evil"` (with expected top-level
directory `"openssl-1.1.0e"`) is rejected and nothing is extracted. -/
theorem claim_C2_witness :
    ∃ e, validateMembers "openssl-1.1.0e".data ["../evil".data] = Except.error e ∧
      e ∈ ["../evil".data] ∧ memberOk "openssl-1.1.0e".data e = false ∧
      unpackWrites "openssl-1.1.0e".data ["../evil".data] = [] :=
  claim_C2 "openssl-1.1.0e".data ["../evil".data]
    ⟨"../evil".data, by simp, by decide⟩

/-- Claim C4: version verification (both the installed-binary check in
`install` and the runtime check in `check_pyssl`) succeeds exactly when the
requested version occurs as a substring of the reported version, and returns
the error carrying the reported string otherwise; concretely, for reported
"OpenSSL 1.1.0e  25 Jan 2017", requested "1.1.0e" succeeds and requested
"1.1.1" fails. -/
theorem claim_C4 :
    (∀ requested reported : String,
      versionCheck requested reported = Except.ok () ↔
        ∃ pre post, reported.data = pre ++ requested.data ++ post) ∧
    (∀ requested reported : String,
      versionCheck requested reported = Except.ok () ∨
        versionCheck requested reported = Except.error reported) ∧
    (∀ requested reported : String,
      checkPyssl requested reported = versionCheck requested reported) ∧
    versionCheck "1.1.0e" "OpenSSL 1.1.0e  25 Jan 2017" = Except.ok () ∧
    versionCheck "1.1.1" "OpenSSL 1.1.0e  25 Jan 2017" =
      Except.error "OpenSSL 1.1.0e  25 Jan 2017" := by
  refine ⟨?_, ?_, ?_, rfl, rfl⟩
  · intro requested reported
    rw [← pyIn_iff]
    unfold versionCheck
    cases hq : pyIn requested.data reported.data <;> simp [hq]
  · intro requested reported
    unfold versionCheck
    cases hq : pyIn requested.data reported.data <;> simp [hq]
  · intro requested reported
    rfl

/-- Claim C9: the extractor's validation constrains only the prefix — any
member named `name ++ "/" ++ rest` is accepted whatever `rest` is, and after
prefix stripping it is extracted under `rest` (with leading slashes removed);
in particular `"openssl-1.1.0e/../evil"` is accepted and extracted under the
name `"../evil"` relative to the destination directory. -/
theorem claim_C9 :
    (∀ name rest : List Char,
      validateMembers name [name ++ '/' :: rest] =
        Except.ok [rest.dropWhile (fun c => c == '/')]) ∧
    validateMembers "openssl-1.1.0e".data ["openssl-1.1.0e/../evil".data] =
      Except.ok ["../evil".data] := by
  constructor
  · intro name rest
    have hne : ((name ++ '/' :: rest) == name) = false := by
      rw [beq_eq_false_iff_ne]
      intro hcontra
      have hlen := congrArg List.length hcontra
      simp at hlen
    have hpre : (name ++ ['/']).isPrefixOf (name ++ '/' :: rest) = true := by
      rw [isPrefixOf_eq_true_iff]
      exact ⟨rest, by simp⟩
    simp [validateMembers, hne, hpre, stripName_append]
  · rfl

/-- Claim C3: idempotence / cache-skip.  When the install prefix already holds
the library binary, `install` performs only the verification step — no
download, extraction, compile or install; when the archive is cached, no
download happens even on the build path; consequently a second `install` run
from the state left by a first run performs only verification and yields the
same validation outcome. -/
theorem claim_C3 (s : BState) (requested reported : String) :
    (s.hasOpenssl = true → (install s requested reported).1 = [Ev.verify]) ∧
    (s.hasSrc = true → Ev.download ∉ (install s requested reported).1) ∧
    (install (install s requested reported).2.1 requested reported).1 = [Ev.verify] ∧
    (install (install s requested reported).2.1 requested reported).2.2 =
      (install s requested reported).2.2 := by
  obtain ⟨ho, hs, hb⟩ := s
  cases ho <;> cases hs <;> cases hb <;>
    exact ⟨fun h => by first | rfl | exact Bool.noConfusion h,
           fun h => by first | exact Bool.noConfusion h | simp [install],
           rfl, rfl⟩

/-- Claim C3 witness: with binary and archive both present, `install` only
verifies and performs no download. -/
theorem claim_C3_witness :
    (install ⟨true, true, false⟩ "1.1.0e" "OpenSSL 1.1.0e  25 Jan 2017").1 = [Ev.verify] ∧
    Ev.download ∉ (install ⟨true, true, false⟩ "1.1.0e" "OpenSSL 1.1.0e  25 Jan 2017").1 :=
  ⟨(claim_C3 ⟨true, true, false⟩ "1.1.0e" "OpenSSL 1.1.0e  25 Jan 2017").1 rfl,
   (claim_C3 ⟨true, true, false⟩ "1.1.0e" "OpenSSL 1.1.0e  25 Jan 2017").2.1 rfl⟩

/-- Claim C5: build-directory lifecycle.  On the build path the trace ends
with create-fresh, extract, configure, compile, install, remove-build-dir,
verify — the directory is deleted beforehand whenever it existed
(`Ev.rmBuild` occurs in the prefix) and recreated fresh (`Ev.mkBuild`)
immediately before extraction — and the final state has no build directory;
a pass started without a build directory never leaves one behind. -/
theorem claim_C5 (s : BState) (requested reported : String) :
    (s.hasOpenssl = false →
      (∃ pre, (install s requested reported).1 =
          pre ++ [Ev.mkBuild, Ev.extract, Ev.configure, Ev.make, Ev.makeInstall,
                  Ev.rmBuild, Ev.verify] ∧
        (s.buildDirExists = true → Ev.rmBuild ∈ pre)) ∧
      (install s requested reported).2.1.buildDirExists = false) ∧
    (s.buildDirExists = false →
      (install s requested reported).2.1.buildDirExists = false) := by
  obtain ⟨ho, hs, hb⟩ := s
  cases ho with
  | true => exact ⟨fun h => Bool.noConfusion h, fun h => h⟩
  | false =>
    cases hs with
    | true =>
      cases hb with
      | true =>
        exact ⟨fun _ => ⟨⟨[Ev.rmBuild], rfl, fun _ => by decide⟩, rfl⟩, fun _ => rfl⟩
      | false =>
        exact ⟨fun _ => ⟨⟨[], rfl, fun h => Bool.noConfusion h⟩, rfl⟩, fun _ => rfl⟩
    | false =>
      cases hb with
      | true =>
        exact ⟨fun _ => ⟨⟨[Ev.download, Ev.rmBuild], rfl, fun _ => by decide⟩, rfl⟩,
               fun _ => rfl⟩
      | false =>
        exact ⟨fun _ => ⟨⟨[Ev.download], rfl, fun h => Bool.noConfusion h⟩, rfl⟩,
               fun _ => rfl⟩

/-- Claim C5 witness: a full build pass from a clean state (no binary, no
cached source, no stale build directory) ends with no build directory. -/
theorem claim_C5_witness :
    (install ⟨false, false, false⟩ "1.0.2" "OpenSSL 1.0.2").2.1.buildDirExists = false :=
  (claim_C5 ⟨false, false, false⟩ "1.0.2" "OpenSSL 1.0.2").2 rfl

/-- Claim C6: environment-overlay frame property.  The rebind environment is
the ambient environment with exactly `CPPFLAGS`, `LDFLAGS` and `LD_RUN_PATH`
overridden to the version's include/lib settings; every other variable reads
back unchanged from the ambient environment (which, being an input of the
pure overlay, is itself never written). -/
theorem claim_C6 (ambient : String → Option String) (includeDir libDir : String) :
    recompileEnv ambient includeDir libDir "CPPFLAGS" = some ("-I" ++ includeDir) ∧
    recompileEnv ambient includeDir libDir "LDFLAGS" = some ("-L" ++ libDir) ∧
    recompileEnv ambient includeDir libDir "LD_RUN_PATH" = some libDir ∧
    ∀ k, k ≠ "CPPFLAGS" → k ≠ "LDFLAGS" → k ≠ "LD_RUN_PATH" →
      recompileEnv ambient includeDir libDir k = ambient k := by
  refine ⟨rfl, rfl, rfl, fun k h1 h2 h3 => ?_⟩
  simp [recompileEnv, h1, h2, h3]

/-- Claim C6 witness: a variable such as `PATH` is inherited unchanged by the
rebind environment. -/
theorem claim_C6_witness :
    recompileEnv (fun k => if k = "PATH" then some "/usr/bin" else none)
        "/inc" "/lib" "PATH" =
      (fun k => if k = "PATH" then some "/usr/bin" else none) "PATH" :=
  (claim_C6 (fun k => if k = "PATH" then some "/usr/bin" else none) "/inc" "/lib").2.2.2
    "PATH" (by decide) (by decide) (by decide)

/-- Claim C7 counterexample: the fetch write is not atomic.  Starting from an
absent cache file, a failure during the write leaves a partial archive
(here the prefix `[1]` of the body `[1, 2, 3]`) at the cache path, so the
cache state is neither unchanged nor the full body. -/
theorem claim_C7_counterexample :
    downloadSrc none [1, 2, 3] (FetchOutcome.failWrite [1]) = some [1] ∧
    downloadSrc none [1, 2, 3] (FetchOutcome.failWrite [1]) ≠ none ∧
    some [1] ≠ some ([1, 2, 3] : List Nat) := by
  refine ⟨rfl, ?_, by simp⟩
  simp [downloadSrc]

/-- Claim C7 (amended): the download happens entirely before the cache file is
opened, so a failure during download leaves the cache unchanged; on success
the cache holds the full body; but the write goes directly to the cache path,
so a failure during the write leaves exactly the flushed prefix there. -/
theorem claim_C7_amended (cache : Option (List Nat)) (body : List Nat) :
    downloadSrc cache body FetchOutcome.failDownload = cache ∧
    downloadSrc cache body FetchOutcome.success = some body ∧
    ∀ written, downloadSrc cache body (FetchOutcome.failWrite written) = some written :=
  ⟨rfl, rfl, fun _ => rfl⟩

/-- Claim C10: verification runs even on the cache-skip path.  When the
install prefix already holds the binary, `install` performs no download or
build work but still runs the version check, succeeding exactly on a
substring match and raising with the reported string otherwise — so a stale
or wrong cached install is always detected. -/
theorem claim_C10 (s : BState) (requested reported : String)
    (h : s.hasOpenssl = true) :
    (install s requested reported).1 = [Ev.verify] ∧
    Ev.download ∉ (install s requested reported).1 ∧
    (pyIn requested.data reported.data = true →
      (install s requested reported).2.2 = Except.ok ()) ∧
    (pyIn requested.data reported.data = false →
      (install s requested reported).2.2 = Except.error reported) := by
  obtain ⟨ho, hs, hb⟩ := s
  cases ho with
  | false => exact Bool.noConfusion h
  | true =>
    refine ⟨rfl, by simp [install], fun hp => ?_, fun hp => ?_⟩
    · simp [install, versionCheck, hp]
    · simp [install, versionCheck, hp]

/-- Claim C10 witness: a cached install reporting "OpenSSL 1.1.0e  25 Jan
2017" fails verification for requested version "1.1.1" without any
download or build work. -/
theorem claim_C10_witness :
    (install ⟨true, true, false⟩ "1.1.1" "OpenSSL 1.1.0e  25 Jan 2017").1 = [Ev.verify] ∧
    (install ⟨true, true, false⟩ "1.1.1" "OpenSSL 1.1.0e  25 Jan 2017").2.2 =
      Except.error "OpenSSL 1.1.0e  25 Jan 2017" :=
  ⟨(claim_C10 ⟨true, true, false⟩ "1.1.1" "OpenSSL 1.1.0e  25 Jan 2017" rfl).1,
   (claim_C10 ⟨true, true, false⟩ "1.1.1" "OpenSSL 1.1.0e  25 Jan 2017" rfl).2.2.2 rfl⟩

/-- Claim C1 counterexample: batch resilience fails.  With version "A" whose
install fails followed by version "B" that would succeed everywhere, "B" is
never attempted at any stage and never appears in the final summary — the
uncaught exception from "A" ends the run. -/
theorem claim_C1_counterexample :
    PEv.install "B" ∉ (mainRun [⟨"A", false, true, true⟩, ⟨"B", true, true, true⟩]).1 ∧
    PEv.rebind "B" ∉ (mainRun [⟨"A", false, true, true⟩, ⟨"B", true, true, true⟩]).1 ∧
    PEv.test "B" ∉ (mainRun [⟨"A", false, true, true⟩, ⟨"B", true, true, true⟩]).1 ∧
    PEv.summary "B" ∉ (mainRun [⟨"A", false, true, true⟩, ⟨"B", true, true, true⟩]).1 ∧
    (mainRun [⟨"A", false, true, true⟩, ⟨"B", true, true, true⟩]).2 = false := by
  decide

/-- Claim C1 (amended): errors are not caught at the per-version boundary —
`__main__` has no handler, so the first version whose install fails aborts
the whole run right there: only the earlier versions' installs (and the
failing attempt itself) happen, versions listed later are never processed at
any stage, and no final summary is printed. -/
theorem claim_C1_amended (pre : List VSpec) (s : VSpec) (post : List VSpec)
    (hpre : ∀ t ∈ pre, t.installOk = true) (hs : s.installOk = false) :
    mainRun (pre ++ s :: post) =
      ((pre.map fun t => PEv.install t.version) ++ [PEv.install s.version], false) := by
  have hip : installPhase (pre ++ s :: post) =
      ((pre.map fun t => PEv.install t.version) ++ [PEv.install s.version], false) := by
    induction pre with
    | nil => simp [installPhase, hs]
    | cons t rest ih =>
      have ht : t.installOk = true := hpre t (by simp)
      have ih' := ih fun u hu => hpre u (by simp [hu])
      simp [installPhase, ht, ih']
  simp [mainRun, hip]

/-- Claim C1 witness: an install failure of "A" yields exactly the aborted
trace `[install "A"]` with overall failure, "B" untouched. -/
theorem claim_C1_witness :
    mainRun [⟨"A", false, true, true⟩, ⟨"B", true, true, true⟩] =
      ([PEv.install "A"], false) := by
  have h := claim_C1_amended [] ⟨"A", false, true, true⟩ [⟨"B", true, true, true⟩]
    (by intro t ht; simp at ht) rfl
  simpa using h

/-- Claim C8: phase ordering.  Whenever any rebind event occurs in a run's
trace, the trace starts with the install (fetch/build/install/verify) events
of every declared version, in order, and no install event occurs anywhere
later — so no rebind ever runs before all versions have been driven through
install and verification. -/
theorem claim_C8 (specs : List VSpec)
    (h : ∃ v, PEv.rebind v ∈ (mainRun specs).1) :
    ∃ rest, (mainRun specs).1 = (specs.map fun s => PEv.install s.version) ++ rest ∧
      ∀ v, PEv.install v ∉ rest := by
  obtain ⟨v, hv⟩ := h
  cases h1 : (installPhase specs).2 with
  | false =>
    exfalso
    rw [mainRun, h1] at hv
    simp only [Bool.false_eq_true, if_false] at hv
    obtain ⟨w, hw⟩ := installPhase_events specs _ hv
    exact PEv.noConfusion hw
  | true =>
    have hmap := installPhase_complete specs h1
    have hsum : ∀ e ∈ (specs.map fun s => PEv.summary s.version), ∀ w,
        e ≠ PEv.install w := by
      intro e he w
      obtain ⟨t, -, rfl⟩ := List.mem_map.mp he
      exact fun hc => PEv.noConfusion hc
    cases h2 : (rebindPhase specs).2 with
    | false =>
      refine ⟨(rebindPhase specs).1, ?_, ?_⟩
      · rw [mainRun, h1, h2]
        simp [hmap]
      · intro w hw
        obtain ⟨u, hu⟩ := rebindPhase_events specs _ hw
        exact PEv.noConfusion hu
    | true =>
      cases h3 : (testPhase specs).2 with
      | false =>
        refine ⟨(rebindPhase specs).1 ++ (testPhase specs).1, ?_, ?_⟩
        · rw [mainRun, h1, h2, h3]
          simp [hmap]
        · intro w hw
          rcases List.mem_append.mp hw with hw' | hw'
          · obtain ⟨u, hu⟩ := rebindPhase_events specs _ hw'
            exact PEv.noConfusion hu
          · rcases testPhase_events specs _ hw' with ⟨u, hu⟩ | ⟨u, hu⟩ <;>
              exact PEv.noConfusion hu
      | true =>
        refine ⟨(rebindPhase specs).1 ++ (testPhase specs).1
          ++ specs.map (fun s => PEv.summary s.version), ?_, ?_⟩
        · rw [mainRun, h1, h2, h3]
          simp [hmap]
        · intro w hw
          rcases List.mem_append.mp hw with hw' | hw'
          · rcases List.mem_append.mp hw' with hw'' | hw''
            · obtain ⟨u, hu⟩ := rebindPhase_events specs _ hw''
              exact PEv.noConfusion hu
            · rcases testPhase_events specs _ hw'' with ⟨u, hu⟩ | ⟨u, hu⟩ <;>
                exact PEv.noConfusion hu
          · exact hsum _ hw' w rfl

/-- Claim C8 witness: a one-version run that reaches rebind has its install
event first and no install event afterwards. -/
theorem claim_C8_witness :
    (∃ v, PEv.rebind v ∈ (mainRun [⟨"A", true, true, true⟩]).1) ∧
    ∃ rest, (mainRun [⟨"A", true, true, true⟩]).1 =
        (([⟨"A", true, true, true⟩] : List VSpec).map fun s => PEv.install s.version)
          ++ rest ∧
      ∀ v, PEv.install v ∉ rest :=
  ⟨⟨"A", by decide⟩, claim_C8 [⟨"A", true, true, true⟩] ⟨"A", by decide⟩⟩

end Multissl
